import Mathlib

/-!
Shallow embedding of the transformation-job orchestration module
(`src/caws/auth.ts`, second document: `transformByQHandler`-style helpers)
and of the environment-settings wizard (`src/mde/wizards/environmentSettings.ts`).

Effects are made explicit:
* the remote status query becomes a function `query : Nat → String` giving the
  status returned by the i-th query;
* the global cancellation flag (`transformByQState.isCancelled()`) becomes
  `cancelled : Nat → Bool`, the value observed at the start of iteration i;
* thrown errors become constructors of a result type;
* the constants module (`CodeWhispererConstants`), which is not part of the
  sources, is abstracted into parameters (`failureStates`, `intervalSeconds`,
  `timeoutSeconds`, ...).
-/

namespace PollLoop

/-- Outcome of `pollTransformationJob`: either the loop breaks with a status in
`validStates`, or it throws one of three errors (job failed, timed out,
`TransformByQStoppedError`). -/
inductive PollResult where
  | ok (status : String)
  | jobFailedError
  | timedOutError
  | stoppedError
deriving DecidableEq

/-- The body of the `while (true)` loop of `pollTransformationJob`, started at
iteration `i` with cumulative timer `timer` (seconds). Mirrors the source:
check cancellation, query the status, break on a valid state, throw on a
failure state, otherwise sleep, add the polling interval to the timer and throw
once the timer exceeds the timeout. The second component of the result counts
the status queries issued from this point on. -/
def pollFrom (query : Nat → String) (cancelled : Nat → Bool)
    (validStates failureStates : List String)
    (intervalSeconds timeoutSeconds : Nat) (hpos : 0 < intervalSeconds)
    (i timer : Nat) : PollResult × Nat :=
  if cancelled i then (.stoppedError, 0)
  else
    let status := query i
    if validStates.contains status then (.ok status, 1)
    else if failureStates.contains status then (.jobFailedError, 1)
    else if timer + intervalSeconds > timeoutSeconds then (.timedOutError, 1)
    else
      let rest := pollFrom query cancelled validStates failureStates
        intervalSeconds timeoutSeconds hpos (i + 1) (timer + intervalSeconds)
      (rest.1, rest.2 + 1)
termination_by timeoutSeconds + 1 - timer
decreasing_by omega

/-- `pollTransformationJob jobId validStates` starts the loop with a zero
timer and the first query. -/
def pollTransformationJob (query : Nat → String) (cancelled : Nat → Bool)
    (validStates failureStates : List String)
    (intervalSeconds timeoutSeconds : Nat) (hpos : 0 < intervalSeconds) :
    PollResult × Nat :=
  pollFrom query cancelled validStates failureStates intervalSeconds
    timeoutSeconds hpos 0 0

end PollLoop

namespace Upload

/-- Request body of `createUploadUrl` as assembled by `uploadPayload`. -/
structure CreateUploadUrlRequest where
  contentChecksum : String
  contentChecksumType : String
  uploadIntent : String
deriving DecidableEq

/-- Response of `createUploadUrl` as consumed by `uploadArtifactToS3`:
`kmsKeyArn` is optional and may be empty. -/
structure CreateUploadUrlResponse where
  uploadUrl : String
  uploadId : String
  kmsKeyArn : Option String
deriving DecidableEq

/-- `getSha256` reads the file and hashes its contents; the SHA-256 +
base64 digest pipeline is abstracted into `hash`, and the file system into
`readFile`. -/
def getSha256 (hash : String → String) (readFile : String → String)
    (fileName : String) : String :=
  hash (readFile fileName)

/-- The PUT request sent to object storage by `uploadArtifactToS3`. -/
structure PutRequest where
  url : String
  headers : List (String × String)
  body : String
deriving DecidableEq

/-- `uploadArtifactToS3` recomputes the digest of the file and sends it as
the `x-amz-checksum-sha256` header of the PUT to the upload URL, adding the
KMS headers exactly when `kmsKeyArn` is present and non-empty. -/
def uploadArtifactToS3 (hash readFile : String → String) (fileName : String)
    (resp : CreateUploadUrlResponse) : PutRequest :=
  let sha256 := getSha256 hash readFile fileName
  let headersObj :=
    match resp.kmsKeyArn with
    | none =>
      [("x-amz-checksum-sha256", sha256), ("Content-Type", "application/zip")]
    | some arn =>
      if arn.length = 0 then
        [("x-amz-checksum-sha256", sha256), ("Content-Type", "application/zip")]
      else
        [("x-amz-checksum-sha256", sha256), ("Content-Type", "application/zip"),
         ("x-amz-server-side-encryption", "aws:kms"),
         ("x-amz-server-side-encryption-aws-kms-key-id", arn)]
  { url := resp.uploadUrl, headers := headersObj, body := readFile fileName }

/-- `uploadPayload` computes the digest once, requests an upload URL carrying
it as `contentChecksum`, then performs the S3 PUT; it returns the issued
requests (its observable effects) together with the `uploadId`. The remote
service is abstracted into `createUploadUrl`. -/
def uploadPayload (hash readFile : String → String) (payloadFileName : String)
    (checksumType uploadIntentKind : String)
    (createUploadUrl : CreateUploadUrlRequest → CreateUploadUrlResponse) :
    CreateUploadUrlRequest × PutRequest × String :=
  let sha256 := getSha256 hash readFile payloadFileName
  let request : CreateUploadUrlRequest :=
    { contentChecksum := sha256, contentChecksumType := checksumType,
      uploadIntent := uploadIntentKind }
  let response := createUploadUrl request
  (request, uploadArtifactToS3 hash readFile payloadFileName response,
    response.uploadId)

end Upload

namespace StrNum

/-- Decimal value of a digit character produced by `Nat.digitChar`. -/
def digitVal (c : Char) : Nat := c.toNat - 48

/-- Left-to-right accumulator reading a decimal digit string back into a
number (inverse of `Nat.toDigitsCore`). -/
def valAux : List Char → Nat → Nat
  | [], a => a
  | c :: cs, a => valAux cs (a * 10 + digitVal c)

end StrNum

namespace CawsAuth

/-- A session as produced by `CawsAuthenticationProvider.login`. -/
structure Session where
  accessDetails : String
  accountId : String
  id : String
deriving DecidableEq

/-- The per-provider mutable state: the `sessions` map (association list in
insertion order, JS `Map` semantics) and the `sessionCounter`. -/
structure ProviderState where
  sessions : List (String × Session)
  sessionCounter : Nat
deriving DecidableEq

/-- The session id format used by `login`. -/
def mkSessionId (n : Nat) : String := "session-" ++ Nat.repr n

/-- `login` (success path): verifies the stored cookie, bumps the counter and
returns a session whose id embeds the incremented counter. -/
def login (st : ProviderState) (accountId cookie : String) :
    Session × ProviderState :=
  let n := st.sessionCounter + 1
  ({ accessDetails := cookie, accountId := accountId, id := mkSessionId n },
   { st with sessionCounter := n })

/-- JS `Map.set`: replace the value of an existing key in place, otherwise
append the new entry. -/
def mapSet (m : List (String × Session)) (k : String) (v : Session) :
    List (String × Session) :=
  match m with
  | [] => [(k, v)]
  | (k0, v0) :: rest =>
    if k0 = k then (k, v) :: rest else (k0, v0) :: mapSet rest k v

/-- `createSession`: log into the account and store the fresh session in the
`sessions` map. -/
def createSession (st : ProviderState) (accountId cookie : String) :
    Session × ProviderState :=
  let p := login st accountId cookie
  (p.1, { p.2 with sessions := mapSet p.2.sessions p.1.id p.1 })

/-- Invariant of a provider instance: every key of the `sessions` map is a
`session-k` id for some counter value `1 ≤ k ≤ sessionCounter`. -/
def SessionIdsBounded (st : ProviderState) : Prop :=
  ∀ p ∈ st.sessions, ∃ k, 1 ≤ k ∧ k ≤ st.sessionCounter ∧ p.1 = mkSessionId k

end CawsAuth

namespace Transform

/-- A file-system tree, input of `getFilesRecursively`. -/
inductive FsEntry where
  | file (name : String) (content : String)
  | dir (name : String) (entries : List FsEntry)

mutual
/-- `getFilesRecursively` on one directory entry: files are collected, the
`target` directory is excluded from the ZIP, other directories are walked;
results are (relative path, contents) pairs. -/
def filesRec : FsEntry → List (String × String)
  | .file n c => [(n, c)]
  | .dir n es =>
    if n = "target" then [] else
      (filesRecList es).map (fun p => (n ++ "/" ++ p.1, p.2))

/-- `getFilesRecursively` over the listed entries of a directory. -/
def filesRecList : List FsEntry → List (String × String)
  | [] => []
  | e :: rest => filesRec e ++ filesRecList rest
end

/-- Name of the temp dependency folder made by `getProjectDependencies`: the
`dependencyFolderName` constant followed by `Date.now().toString()`. -/
def getProjectDependenciesFolderName (depFolderBase : String) (now : Nat) :
    String :=
  depFolderBase ++ Nat.repr now

/-- Modelled from the spec: the serialized `ZipManifest` (`models/model`, not
among the sources) written as `manifest.json`, with `dependenciesRoot` set by
`zipCode` to the dependency folder name followed by `/`. -/
def manifestJson (dependenciesRoot : String) : String :=
  "\x7b\"dependenciesRoot\":\"" ++ dependenciesRoot ++ "\"\x7d"

/-- `zipCode`: walk the module sources and the resolved dependencies, and lay
out the archive as the `manifest.json` entry, the source files under
`sources/`, and the dependency files under the timestamped dependency folder
name. An archive is its ordered list of (entry name, bytes). -/
def zipCode (moduleEntries depTreeEntries : List FsEntry)
    (depFolderBase : String) (now : Nat) : List (String × String) :=
  let sourceFiles := filesRecList moduleEntries
  let dependencyFolderName := getProjectDependenciesFolderName depFolderBase now
  let dependencyFiles := filesRecList depTreeEntries
  ("manifest.json", manifestJson (dependencyFolderName ++ "/")) ::
    (sourceFiles.map (fun p => ("sources/" ++ p.1, p.2)) ++
     dependencyFiles.map (fun p => (dependencyFolderName ++ "/" ++ p.1, p.2)))

end Transform

namespace SettingsWizard

/-- The fields of a `SettingsForm` object: `persistentStorage` is a nested
object, represented by a heap reference so that the sharing created by the
shallow copy in `run` is modelled faithfully. -/
structure FormObj where
  instanceType : String
  inactivityTimeoutMinutes : Nat
  storageRef : Nat
deriving DecidableEq

/-- The object heap: allocated addresses are those below `nextAddr`;
`forms` maps addresses to `SettingsForm` objects and `storages` maps
addresses to `persistentStorage` objects (their `sizeInGiB` field). -/
structure Heap where
  nextAddr : Nat
  forms : Nat → FormObj
  storages : Nat → Nat

/-- The value of a settings form as the caller observes it: its own fields
with the nested `persistentStorage.sizeInGiB` read through the reference. -/
structure FormValue where
  instanceType : String
  inactivityTimeoutMinutes : Nat
  sizeInGiB : Nat
deriving DecidableEq

/-- Dereference a form: its fields together with the storage it points to. -/
def readForm (h : Heap) (a : Nat) : FormValue :=
  { instanceType := (h.forms a).instanceType,
    inactivityTimeoutMinutes := (h.forms a).inactivityTimeoutMinutes,
    sizeInGiB := h.storages ((h.forms a).storageRef) }

/-- One outcome of the menu quick-pick in `run`: one of the three edit items
(whose sub-prompt either returns a valid response or not), the save item, or
an invalid response (prompt dismissed). -/
inductive MenuResponse where
  | editInstance (result : Option String)
  | editTimeout (result : Option Nat)
  | editStorage (result : Option Nat)
  | save
  | dismiss

/-- Effect of one selected menu item on the heap, `curr` being the address of
the working copy: compute-size and timeout edits assign fields of `curr` in
place; the storage edit allocates a fresh `\x7b sizeInGiB: result \x7d` object and
re-points `curr.persistentStorage` at it. Invalid sub-prompt responses leave
everything unchanged. -/
def applyResponse (h : Heap) (curr : Nat) : MenuResponse → Heap
  | .editInstance none => h
  | .editInstance (some r) =>
    { h with forms := fun a =>
        if a = curr then { h.forms curr with instanceType := r }
        else h.forms a }
  | .editTimeout none => h
  | .editTimeout (some r) =>
    { h with forms := fun a =>
        if a = curr then { h.forms curr with inactivityTimeoutMinutes := r }
        else h.forms a }
  | .editStorage none => h
  | .editStorage (some r) =>
    { nextAddr := h.nextAddr + 1,
      forms := fun a =>
        if a = curr then { h.forms curr with storageRef := h.nextAddr }
        else h.forms a,
      storages := fun a => if a = h.nextAddr then r else h.storages a }
  | .save => h
  | .dismiss => h

/-- The `while (true)` loop of `run` over the successive prompt responses:
`save` returns the working copy, an invalid response breaks with no result,
an edit item applies its effect and re-prompts. An exhausted response list
models a session that never ends and is reported as no result. -/
def runLoop (h : Heap) (curr : Nat) : List MenuResponse → Heap × Option Nat
  | [] => (h, none)
  | r :: rest =>
    match r with
    | .save => (h, some curr)
    | .dismiss => (h, none)
    | e => runLoop (applyResponse h curr e) curr rest

/-- `EnvironmentSettingsWizard.run`: make the working copy
`curr = Object.assign(\x7b\x7d, initState)` — a fresh form object with the same
fields, sharing the `persistentStorage` reference — then run the menu loop. -/
def run (h : Heap) (initAddr : Nat) (responses : List MenuResponse) :
    Heap × Option Nat :=
  let currAddr := h.nextAddr
  let h1 : Heap :=
    { nextAddr := h.nextAddr + 1,
      forms := fun a => if a = currAddr then h.forms initAddr else h.forms a,
      storages := h.storages }
  runLoop h1 currAddr responses

end SettingsWizard

namespace PollLoop

/-- Step equation: when the cancellation flag is set at the start of an
iteration, the loop throws `TransformByQStoppedError` without querying. -/
theorem pollFrom_step_stopped (query : Nat → String) (cancelled : Nat → Bool)
    (validStates failureStates : List String)
    (intervalSeconds timeoutSeconds : Nat) (hpos : 0 < intervalSeconds)
    (i timer : Nat) (hc : cancelled i = true) :
    pollFrom query cancelled validStates failureStates intervalSeconds
      timeoutSeconds hpos i timer = (.stoppedError, 0) := by
  rw [pollFrom, if_pos hc]

/-- Step equation: a queried status contained in `validStates` breaks the loop
at once with that status, after the single query of this iteration. -/
theorem pollFrom_step_ok (query : Nat → String) (cancelled : Nat → Bool)
    (validStates failureStates : List String)
    (intervalSeconds timeoutSeconds : Nat) (hpos : 0 < intervalSeconds)
    (i timer : Nat) (hc : cancelled i = false)
    (hv : validStates.contains (query i) = true) :
    pollFrom query cancelled validStates failureStates intervalSeconds
      timeoutSeconds hpos i timer = (.ok (query i), 1) := by
  rw [pollFrom, if_neg (by simp [hc])]
  show (if validStates.contains (query i) = true then _ else _) = _
  rw [if_pos hv]

/-- Step equation: a queried status in the failure set (and not in
`validStates`) throws the job-failed error after the single query of this
iteration. -/
theorem pollFrom_step_failed (query : Nat → String) (cancelled : Nat → Bool)
    (validStates failureStates : List String)
    (intervalSeconds timeoutSeconds : Nat) (hpos : 0 < intervalSeconds)
    (i timer : Nat) (hc : cancelled i = false)
    (hv : validStates.contains (query i) = false)
    (hf : failureStates.contains (query i) = true) :
    pollFrom query cancelled validStates failureStates intervalSeconds
      timeoutSeconds hpos i timer = (.jobFailedError, 1) := by
  rw [pollFrom, if_neg (by simp [hc])]
  show (if validStates.contains (query i) = true then _ else _) = _
  rw [if_neg (by rw [hv]; decide), if_pos hf]

/-- Step equation: a pending status with the incremented timer past the
timeout throws the timeout error after the single query of this iteration. -/
theorem pollFrom_step_timeout (query : Nat → String) (cancelled : Nat → Bool)
    (validStates failureStates : List String)
    (intervalSeconds timeoutSeconds : Nat) (hpos : 0 < intervalSeconds)
    (i timer : Nat) (hc : cancelled i = false)
    (hv : validStates.contains (query i) = false)
    (hf : failureStates.contains (query i) = false)
    (ht : timer + intervalSeconds > timeoutSeconds) :
    pollFrom query cancelled validStates failureStates intervalSeconds
      timeoutSeconds hpos i timer = (.timedOutError, 1) := by
  rw [pollFrom, if_neg (by simp [hc])]
  show (if validStates.contains (query i) = true then _ else _) = _
  rw [if_neg (by rw [hv]; decide), if_neg (by rw [hf]; decide), if_pos ht]

/-- Step equation: a pending status within the time budget sleeps, adds the
polling interval to the timer, and runs another iteration. -/
theorem pollFrom_step_continue (query : Nat → String) (cancelled : Nat → Bool)
    (validStates failureStates : List String)
    (intervalSeconds timeoutSeconds : Nat) (hpos : 0 < intervalSeconds)
    (i timer : Nat) (hc : cancelled i = false)
    (hv : validStates.contains (query i) = false)
    (hf : failureStates.contains (query i) = false)
    (ht : timer + intervalSeconds ≤ timeoutSeconds) :
    pollFrom query cancelled validStates failureStates intervalSeconds
      timeoutSeconds hpos i timer
      = ((pollFrom query cancelled validStates failureStates intervalSeconds
            timeoutSeconds hpos (i + 1) (timer + intervalSeconds)).1,
         (pollFrom query cancelled validStates failureStates intervalSeconds
            timeoutSeconds hpos (i + 1) (timer + intervalSeconds)).2 + 1) := by
  rw [pollFrom, if_neg (by simp [hc])]
  show (if validStates.contains (query i) = true then _ else _) = _
  rw [if_neg (by rw [hv]; decide), if_neg (by rw [hf]; decide),
    if_neg (by omega)]

/-- Helper: whenever the loop breaks with `.ok s` after `m` status queries,
the last query returned `s`, `s` is a valid state, and no earlier query of the
run returned a valid state. -/
theorem pollFrom_ok_inv (query : Nat → String) (cancelled : Nat → Bool)
    (validStates failureStates : List String)
    (intervalSeconds timeoutSeconds : Nat) (hpos : 0 < intervalSeconds) :
    ∀ i timer s m,
      pollFrom query cancelled validStates failureStates intervalSeconds
        timeoutSeconds hpos i timer = (.ok s, m) →
      1 ≤ m ∧ s = query (i + (m - 1)) ∧ validStates.contains s = true ∧
        ∀ j, j + 1 < m → validStates.contains (query (i + j)) = false := by
  intro i timer
  induction i, timer using pollFrom.induct query cancelled validStates
    failureStates intervalSeconds timeoutSeconds hpos with
  | case1 i timer hc =>
    intro s m h
    rw [pollFrom_step_stopped query cancelled validStates failureStates
      intervalSeconds timeoutSeconds hpos i timer hc] at h
    simp at h
  | case2 i timer hc status hv =>
    intro s m h
    have hc' : cancelled i = false := by simpa using hc
    have hv' : validStates.contains (query i) = true := hv
    rw [pollFrom_step_ok query cancelled validStates failureStates
      intervalSeconds timeoutSeconds hpos i timer hc' hv'] at h
    simp only [Prod.mk.injEq, PollResult.ok.injEq] at h
    obtain ⟨hs, hm⟩ := h
    refine ⟨by omega, ?_, ?_, ?_⟩
    · rw [← hs, ← hm]; simp
    · rw [← hs]; exact hv'
    · intro j hj; omega
  | case3 i timer hc status hv hf =>
    intro s m h
    have hc' : cancelled i = false := by simpa using hc
    have hv' : validStates.contains (query i) = false := by simpa using hv
    have hf' : failureStates.contains (query i) = true := hf
    rw [pollFrom_step_failed query cancelled validStates failureStates
      intervalSeconds timeoutSeconds hpos i timer hc' hv' hf'] at h
    simp at h
  | case4 i timer hc status hv hf ht =>
    intro s m h
    have hc' : cancelled i = false := by simpa using hc
    have hv' : validStates.contains (query i) = false := by simpa using hv
    have hf' : failureStates.contains (query i) = false := by simpa using hf
    rw [pollFrom_step_timeout query cancelled validStates failureStates
      intervalSeconds timeoutSeconds hpos i timer hc' hv' hf' ht] at h
    simp at h
  | case5 i timer hc status hv hf ht ih =>
    intro s m h
    have hc' : cancelled i = false := by simpa using hc
    have hv' : validStates.contains (query i) = false := by simpa using hv
    have hf' : failureStates.contains (query i) = false := by simpa using hf
    have ht' : timer + intervalSeconds ≤ timeoutSeconds := by omega
    rw [pollFrom_step_continue query cancelled validStates failureStates
      intervalSeconds timeoutSeconds hpos i timer hc' hv' hf' ht'] at h
    simp only [Prod.mk.injEq] at h
    obtain ⟨h1, h2⟩ := h
    obtain ⟨hm1, hs, hcont, hfirst⟩ :=
      ih s (pollFrom query cancelled validStates failureStates intervalSeconds
        timeoutSeconds hpos (i + 1) (timer + intervalSeconds)).2
        (Prod.ext_iff.mpr ⟨h1, rfl⟩)
    refine ⟨by omega, ?_, hcont, ?_⟩
    · have harith : i + 1 + ((pollFrom query cancelled validStates failureStates
          intervalSeconds timeoutSeconds hpos (i + 1) (timer + intervalSeconds)).2 - 1)
          = i + (m - 1) := by omega
      rw [← harith]; exact hs
    · intro j hj
      match j with
      | 0 =>
        simpa using hv'
      | Nat.succ j' =>
        have hrec := hfirst j' (by omega)
        have harith : i + 1 + j' = i + (j' + 1) := by omega
        rw [harith] at hrec
        exact hrec

/-- Helper: the query counter of a run started with cumulative timer `timer`
is bounded by `(timeoutSeconds - timer) / intervalSeconds + 1`. -/
theorem pollFrom_count_le (query : Nat → String) (cancelled : Nat → Bool)
    (validStates failureStates : List String)
    (intervalSeconds timeoutSeconds : Nat) (hpos : 0 < intervalSeconds) :
    ∀ i timer,
      (pollFrom query cancelled validStates failureStates intervalSeconds
        timeoutSeconds hpos i timer).2
        ≤ (timeoutSeconds - timer) / intervalSeconds + 1 := by
  intro i timer
  induction i, timer using pollFrom.induct query cancelled validStates
    failureStates intervalSeconds timeoutSeconds hpos with
  | case1 i timer hc =>
    rw [pollFrom_step_stopped query cancelled validStates failureStates
      intervalSeconds timeoutSeconds hpos i timer hc]
    simp
  | case2 i timer hc status hv =>
    have hc' : cancelled i = false := by simpa using hc
    have hv' : validStates.contains (query i) = true := hv
    rw [pollFrom_step_ok query cancelled validStates failureStates
      intervalSeconds timeoutSeconds hpos i timer hc' hv']
    exact Nat.le_add_left 1 _
  | case3 i timer hc status hv hf =>
    have hc' : cancelled i = false := by simpa using hc
    have hv' : validStates.contains (query i) = false := by simpa using hv
    have hf' : failureStates.contains (query i) = true := hf
    rw [pollFrom_step_failed query cancelled validStates failureStates
      intervalSeconds timeoutSeconds hpos i timer hc' hv' hf']
    exact Nat.le_add_left 1 _
  | case4 i timer hc status hv hf ht =>
    have hc' : cancelled i = false := by simpa using hc
    have hv' : validStates.contains (query i) = false := by simpa using hv
    have hf' : failureStates.contains (query i) = false := by simpa using hf
    rw [pollFrom_step_timeout query cancelled validStates failureStates
      intervalSeconds timeoutSeconds hpos i timer hc' hv' hf' ht]
    exact Nat.le_add_left 1 _
  | case5 i timer hc status hv hf ht ih =>
    have hc' : cancelled i = false := by simpa using hc
    have hv' : validStates.contains (query i) = false := by simpa using hv
    have hf' : failureStates.contains (query i) = false := by simpa using hf
    have ht' : timer + intervalSeconds ≤ timeoutSeconds := by omega
    rw [pollFrom_step_continue query cancelled validStates failureStates
      intervalSeconds timeoutSeconds hpos i timer hc' hv' hf' ht']
    have hdiv : (timeoutSeconds - timer) / intervalSeconds
        = (timeoutSeconds - (timer + intervalSeconds)) / intervalSeconds + 1 := by
      conv_lhs =>
        rw [show timeoutSeconds - timer
          = (timeoutSeconds - (timer + intervalSeconds)) + intervalSeconds by omega]
      rw [Nat.add_div_right _ hpos]
    dsimp only
    rw [hdiv]
    exact Nat.add_le_add_right ih 1

end PollLoop

namespace PollLoop

/-- C1: as soon as a queried job status is contained in `validStates`, the
loop stops polling (exactly the one query of the current iteration, no
further query) and returns that status; consequently, whenever a run of
`pollTransformationJob` returns a status, it is the first queried status
contained in `validStates`. -/
theorem pollFrom_returns_first_valid (query : Nat → String) (cancelled : Nat → Bool)
    (validStates failureStates : List String)
    (intervalSeconds timeoutSeconds : Nat) (hpos : 0 < intervalSeconds)
    (i timer : Nat) (s : String) (m : Nat) :
    (cancelled i = false → validStates.contains (query i) = true →
      pollFrom query cancelled validStates failureStates intervalSeconds
        timeoutSeconds hpos i timer = (.ok (query i), 1)) ∧
    (pollFrom query cancelled validStates failureStates intervalSeconds
        timeoutSeconds hpos i timer = (.ok s, m) →
      1 ≤ m ∧ s = query (i + (m - 1)) ∧ validStates.contains s = true ∧
        ∀ j, j + 1 < m → validStates.contains (query (i + j)) = false) := by
  constructor
  · intro hc hv
    exact pollFrom_step_ok query cancelled validStates failureStates
      intervalSeconds timeoutSeconds hpos i timer hc hv
  · exact pollFrom_ok_inv query cancelled validStates failureStates
      intervalSeconds timeoutSeconds hpos i timer s m

/-- Witness for C1 at a concrete environment: every query answers COMPLETED,
which is a valid state, so the loop returns it after exactly one query; the
invariant half then reports that one query with a valid last status. -/
theorem pollFrom_returns_first_valid_witness :
    (pollFrom (fun _ => "COMPLETED") (fun _ => false) ["COMPLETED"] ["FAILED"]
      5 30 (by decide) 0 0 = (.ok "COMPLETED", 1)) ∧
    (1 ≤ 1 ∧ "COMPLETED" = "COMPLETED" ∧
      List.contains ["COMPLETED"] "COMPLETED" = true ∧
      ∀ j, j + 1 < 1 →
        List.contains ["COMPLETED"] ((fun _ : Nat => "COMPLETED") (0 + j)) = false) := by
  have h := pollFrom_returns_first_valid (fun _ => "COMPLETED") (fun _ => false)
    ["COMPLETED"] ["FAILED"] 5 30 (by decide) 0 0 "COMPLETED" 1
  have h1 := h.1 rfl (by decide)
  exact ⟨h1, h.2 h1⟩

/-- C2: a queried status in the failure set (and not in `validStates`) makes
the loop throw the job-failed error after the one query of the current
iteration, while a pending status (in neither set), within the time budget,
only causes another polling iteration. -/
theorem pollFrom_failure_throws_pending_continues (query : Nat → String)
    (cancelled : Nat → Bool) (validStates failureStates : List String)
    (intervalSeconds timeoutSeconds : Nat) (hpos : 0 < intervalSeconds)
    (i timer : Nat) :
    (cancelled i = false → validStates.contains (query i) = false →
      failureStates.contains (query i) = true →
      pollFrom query cancelled validStates failureStates intervalSeconds
        timeoutSeconds hpos i timer = (.jobFailedError, 1)) ∧
    (cancelled i = false → validStates.contains (query i) = false →
      failureStates.contains (query i) = false →
      timer + intervalSeconds ≤ timeoutSeconds →
      pollFrom query cancelled validStates failureStates intervalSeconds
        timeoutSeconds hpos i timer
        = ((pollFrom query cancelled validStates failureStates intervalSeconds
              timeoutSeconds hpos (i + 1) (timer + intervalSeconds)).1,
           (pollFrom query cancelled validStates failureStates intervalSeconds
              timeoutSeconds hpos (i + 1) (timer + intervalSeconds)).2 + 1)) := by
  constructor
  · intro hc hv hf
    exact pollFrom_step_failed query cancelled validStates failureStates
      intervalSeconds timeoutSeconds hpos i timer hc hv hf
  · intro hc hv hf ht
    exact pollFrom_step_continue query cancelled validStates failureStates
      intervalSeconds timeoutSeconds hpos i timer hc hv hf ht

/-- Witness for C2: the first query is PENDING (neither set) and continues;
the second query is FAILED and throws. -/
theorem pollFrom_failure_throws_pending_continues_witness :
    (pollFrom (fun j => if j = 0 then "PENDING" else "FAILED") (fun _ => false)
      ["COMPLETED"] ["FAILED"] 1 10 (by decide) 1 1 = (.jobFailedError, 1)) ∧
    (pollFrom (fun j => if j = 0 then "PENDING" else "FAILED") (fun _ => false)
      ["COMPLETED"] ["FAILED"] 1 10 (by decide) 0 0
      = ((pollFrom (fun j => if j = 0 then "PENDING" else "FAILED") (fun _ => false)
            ["COMPLETED"] ["FAILED"] 1 10 (by decide) 1 1).1,
         (pollFrom (fun j => if j = 0 then "PENDING" else "FAILED") (fun _ => false)
            ["COMPLETED"] ["FAILED"] 1 10 (by decide) 1 1).2 + 1)) := by
  constructor
  · exact (pollFrom_failure_throws_pending_continues
      (fun j => if j = 0 then "PENDING" else "FAILED") (fun _ => false)
      ["COMPLETED"] ["FAILED"] 1 10 (by decide) 1 1).1 rfl (by decide) (by decide)
  · exact (pollFrom_failure_throws_pending_continues
      (fun j => if j = 0 then "PENDING" else "FAILED") (fun _ => false)
      ["COMPLETED"] ["FAILED"] 1 10 (by decide) 0 0).2 rfl (by decide) (by decide)
      (by decide)

/-- C3: a pending status sleeps and adds the polling interval to the
cumulative timer; as soon as the incremented timer exceeds
`transformationJobTimeoutSeconds`, the loop throws the timeout error without
issuing any further status query. -/
theorem pollFrom_timeout_is_retry_free (query : Nat → String)
    (cancelled : Nat → Bool) (validStates failureStates : List String)
    (intervalSeconds timeoutSeconds : Nat) (hpos : 0 < intervalSeconds)
    (i timer : Nat) :
    (cancelled i = false → validStates.contains (query i) = false →
      failureStates.contains (query i) = false →
      timer + intervalSeconds > timeoutSeconds →
      pollFrom query cancelled validStates failureStates intervalSeconds
        timeoutSeconds hpos i timer = (.timedOutError, 1)) ∧
    (cancelled i = false → validStates.contains (query i) = false →
      failureStates.contains (query i) = false →
      timer + intervalSeconds ≤ timeoutSeconds →
      pollFrom query cancelled validStates failureStates intervalSeconds
        timeoutSeconds hpos i timer
        = ((pollFrom query cancelled validStates failureStates intervalSeconds
              timeoutSeconds hpos (i + 1) (timer + intervalSeconds)).1,
           (pollFrom query cancelled validStates failureStates intervalSeconds
              timeoutSeconds hpos (i + 1) (timer + intervalSeconds)).2 + 1)) := by
  constructor
  · intro hc hv hf ht
    exact pollFrom_step_timeout query cancelled validStates failureStates
      intervalSeconds timeoutSeconds hpos i timer hc hv hf ht
  · intro hc hv hf ht
    exact pollFrom_step_continue query cancelled validStates failureStates
      intervalSeconds timeoutSeconds hpos i timer hc hv hf ht

/-- Witness for C3: with a 1-second interval and a 1-second timeout, the
first pending query continues (timer 0 → 1 ≤ 1) and the second pending query
times out (timer 1 → 2 > 1) with exactly one query at that iteration. -/
theorem pollFrom_timeout_is_retry_free_witness :
    (pollFrom (fun _ => "PENDING") (fun _ => false) ["COMPLETED"] ["FAILED"]
      1 1 (by decide) 1 1 = (.timedOutError, 1)) ∧
    (pollFrom (fun _ => "PENDING") (fun _ => false) ["COMPLETED"] ["FAILED"]
      1 1 (by decide) 0 0
      = ((pollFrom (fun _ => "PENDING") (fun _ => false) ["COMPLETED"] ["FAILED"]
            1 1 (by decide) 1 1).1,
         (pollFrom (fun _ => "PENDING") (fun _ => false) ["COMPLETED"] ["FAILED"]
            1 1 (by decide) 1 1).2 + 1)) := by
  constructor
  · exact (pollFrom_timeout_is_retry_free (fun _ => "PENDING") (fun _ => false)
      ["COMPLETED"] ["FAILED"] 1 1 (by decide) 1 1).1 rfl (by decide) (by decide)
      (by decide)
  · exact (pollFrom_timeout_is_retry_free (fun _ => "PENDING") (fun _ => false)
      ["COMPLETED"] ["FAILED"] 1 1 (by decide) 0 0).2 rfl (by decide) (by decide)
      (by decide)

/-- C4: cancellation is checked at the start of every iteration, before the
status query of that iteration: if the global transform state is cancelled,
the loop throws `TransformByQStoppedError` with zero further status queries. -/
theorem pollFrom_cancellation_checked_first (query : Nat → String)
    (cancelled : Nat → Bool) (validStates failureStates : List String)
    (intervalSeconds timeoutSeconds : Nat) (hpos : 0 < intervalSeconds)
    (i timer : Nat) (hc : cancelled i = true) :
    pollFrom query cancelled validStates failureStates intervalSeconds
      timeoutSeconds hpos i timer = (.stoppedError, 0) :=
  pollFrom_step_stopped query cancelled validStates failureStates
    intervalSeconds timeoutSeconds hpos i timer hc

/-- Witness for C4: a cancelled iteration throws with a query count of 0,
whatever the pending statuses would have been. -/
theorem pollFrom_cancellation_checked_first_witness :
    pollFrom (fun _ => "COMPLETED") (fun _ => true) ["COMPLETED"] ["FAILED"]
      5 30 (by decide) 3 2 = (.stoppedError, 0) :=
  pollFrom_cancellation_checked_first (fun _ => "COMPLETED") (fun _ => true)
    ["COMPLETED"] ["FAILED"] 5 30 (by decide) 3 2 rfl

/-- C5: the polling loop is bounded: a full run of `pollTransformationJob`
issues at most `timeoutSeconds / intervalSeconds + 1` status queries before
returning a valid status or throwing. -/
theorem pollTransformationJob_bounded_queries (query : Nat → String)
    (cancelled : Nat → Bool) (validStates failureStates : List String)
    (intervalSeconds timeoutSeconds : Nat) (hpos : 0 < intervalSeconds) :
    (pollTransformationJob query cancelled validStates failureStates
      intervalSeconds timeoutSeconds hpos).2
      ≤ timeoutSeconds / intervalSeconds + 1 := by
  have h := pollFrom_count_le query cancelled validStates failureStates
    intervalSeconds timeoutSeconds hpos 0 0
  simpa [pollTransformationJob] using h

/-- Witness for C5: a run that always sees PENDING with interval 2 and
timeout 5 makes at most 5 / 2 + 1 = 3 queries. -/
theorem pollTransformationJob_bounded_queries_witness :
    (pollTransformationJob (fun _ => "PENDING") (fun _ => false) ["COMPLETED"]
      ["FAILED"] 2 5 (by decide)).2 ≤ 5 / 2 + 1 :=
  pollTransformationJob_bounded_queries (fun _ => "PENDING") (fun _ => false)
    ["COMPLETED"] ["FAILED"] 2 5 (by decide)

/-- C9: membership in `validStates` is tested before membership in the
failure set: a queried status belonging to both is returned as a success
rather than raising the job-failed error. -/
theorem pollFrom_valid_checked_before_failure (query : Nat → String)
    (cancelled : Nat → Bool) (validStates failureStates : List String)
    (intervalSeconds timeoutSeconds : Nat) (hpos : 0 < intervalSeconds)
    (i timer : Nat) (hc : cancelled i = false)
    (hv : validStates.contains (query i) = true)
    (hf : failureStates.contains (query i) = true) :
    pollFrom query cancelled validStates failureStates intervalSeconds
      timeoutSeconds hpos i timer = (.ok (query i), 1) :=
  pollFrom_step_ok query cancelled validStates failureStates intervalSeconds
    timeoutSeconds hpos i timer hc hv

/-- Witness for C9: PARTIALLY_COMPLETED listed both as a valid state and as a
failure state is returned, not raised. -/
theorem pollFrom_valid_checked_before_failure_witness :
    pollFrom (fun _ => "PARTIALLY_COMPLETED") (fun _ => false)
      ["COMPLETED", "PARTIALLY_COMPLETED"] ["FAILED", "PARTIALLY_COMPLETED"]
      5 30 (by decide) 0 0 = (.ok "PARTIALLY_COMPLETED", 1) :=
  pollFrom_valid_checked_before_failure (fun _ => "PARTIALLY_COMPLETED")
    (fun _ => false) ["COMPLETED", "PARTIALLY_COMPLETED"]
    ["FAILED", "PARTIALLY_COMPLETED"] 5 30 (by decide) 0 0 rfl (by decide)
    (by decide)

end PollLoop

namespace Upload

/-- C7: the archive is checksummed before it is uploaded: `uploadPayload`
supplies the digest of the payload file as `contentChecksum` of the
`createUploadUrl` request, and the subsequent PUT carries the same digest of
the same file as its `x-amz-checksum-sha256` header, with the file contents
as its body. -/
theorem uploadPayload_checksums_before_upload (hash readFile : String → String)
    (payloadFileName checksumType uploadIntentKind : String)
    (createUploadUrl : CreateUploadUrlRequest → CreateUploadUrlResponse) :
    (uploadPayload hash readFile payloadFileName checksumType uploadIntentKind
        createUploadUrl).1.contentChecksum = hash (readFile payloadFileName) ∧
    (uploadPayload hash readFile payloadFileName checksumType uploadIntentKind
        createUploadUrl).2.1.headers.lookup "x-amz-checksum-sha256"
      = some (hash (readFile payloadFileName)) ∧
    (uploadPayload hash readFile payloadFileName checksumType uploadIntentKind
        createUploadUrl).2.1.body = readFile payloadFileName := by
  refine ⟨rfl, ?_, rfl⟩
  show (uploadArtifactToS3 hash readFile payloadFileName _).headers.lookup
    "x-amz-checksum-sha256" = _
  rw [uploadArtifactToS3]
  cases h : (createUploadUrl
      { contentChecksum := getSha256 hash readFile payloadFileName,
        contentChecksumType := checksumType,
        uploadIntent := uploadIntentKind }).kmsKeyArn with
  | none => simp [h, List.lookup, getSha256]
  | some arn =>
    by_cases hlen : arn.length = 0 <;> simp [h, hlen, List.lookup, getSha256]

end Upload

namespace StrNum

theorem digitVal_digitChar (k : Nat) (hk : k < 10) :
    digitVal (Nat.digitChar k) = k := by
  interval_cases k <;> rfl

theorem toDigitsCore_val :
    ∀ f n, n < f → ∃ p, ∀ ds a,
      valAux (Nat.toDigitsCore 10 f n ds) a = valAux ds (a * p + n) := by
  intro f
  induction f with
  | zero => intro n hn; omega
  | succ f ih =>
    intro n hn
    by_cases h0 : n / 10 = 0
    · refine ⟨10, fun ds a => ?_⟩
      have hlt : n < 10 := by omega
      have hmod : n % 10 = n := Nat.mod_eq_of_lt hlt
      simp only [Nat.toDigitsCore, h0, if_pos]
      rw [valAux, hmod, digitVal_digitChar n hlt]
    · have hlt : n / 10 < f := by
        have h1 : n / 10 < n := Nat.div_lt_self (by omega) (by omega)
        omega
      obtain ⟨p, hp⟩ := ih (n / 10) hlt
      refine ⟨p * 10, fun ds a => ?_⟩
      simp only [Nat.toDigitsCore, h0, if_false]
      rw [hp (Nat.digitChar (n % 10) :: ds) a, valAux,
        digitVal_digitChar (n % 10) (Nat.mod_lt n (by omega))]
      congr 1
      have := Nat.div_add_mod n 10
      ring_nf
      omega

theorem valAux_toDigits (n : Nat) : valAux (Nat.toDigits 10 n) 0 = n := by
  obtain ⟨p, hp⟩ := toDigitsCore_val (n + 1) n (Nat.lt_succ_self n)
  have h := hp [] 0
  rw [Nat.toDigits] at *
  rw [h, valAux, Nat.zero_mul, Nat.zero_add]

/-- `Nat.repr` is injective: distinct numbers have distinct decimal
strings. -/
theorem repr_inj {n m : Nat} (h : Nat.repr n = Nat.repr m) : n = m := by
  have hd : Nat.toDigits 10 n = Nat.toDigits 10 m := by
    rw [Nat.repr, Nat.repr] at h
    exact List.asString_inj.mp h
  calc n = valAux (Nat.toDigits 10 n) 0 := (valAux_toDigits n).symm
    _ = valAux (Nat.toDigits 10 m) 0 := by rw [hd]
    _ = m := valAux_toDigits m

/-- Appending to a fixed string on the left is injective. -/
theorem append_left_inj (s : String) {a b : String} (h : s ++ a = s ++ b) :
    a = b := by
  have hd : s.data ++ a.data = s.data ++ b.data := by
    rw [← String.data_append, ← String.data_append, h]
  have hab : a.data = b.data := List.append_cancel_left hd
  exact congrArg String.mk hab

/-- Appending a fixed string on the right is injective. -/
theorem append_right_inj (s : String) {a b : String} (h : a ++ s = b ++ s) :
    a = b := by
  have hd : a.data ++ s.data = b.data ++ s.data := by
    rw [← String.data_append, ← String.data_append, h]
  have hab : a.data = b.data := List.append_cancel_right hd
  exact congrArg String.mk hab

end StrNum

namespace CawsAuth

/-- The id constructor is injective. -/
theorem mkSessionId_inj {n m : Nat} (h : mkSessionId n = mkSessionId m) :
    n = m :=
  StrNum.repr_inj (StrNum.append_left_inj "session-" h)

/-- `Map.set` with a key absent from the map appends the entry. -/
theorem mapSet_of_fresh (m : List (String × Session)) (k : String) (v : Session)
    (hk : ∀ p ∈ m, p.1 ≠ k) : mapSet m k v = m ++ [(k, v)] := by
  induction m with
  | nil => rfl
  | cons hd tl ih =>
    have hne : hd.1 ≠ k := hk hd (by simp)
    rw [mapSet]
    simp only [hne, if_false]
    rw [ih (fun p hp => hk p (by simp [hp]))]
    simp

/-- C10: `createSession` gives every new session the id
`session-(sessionCounter + 1)` from the strictly increasing per-provider
counter; under the provider invariant the id differs from every id already in
the `sessions` map, inserting appends rather than overwrites, and the
invariant is preserved with the incremented counter. -/
theorem createSession_fresh_id (st : ProviderState) (accountId cookie : String)
    (hInv : SessionIdsBounded st) :
    (createSession st accountId cookie).1.id
      = mkSessionId (st.sessionCounter + 1) ∧
    (∀ p ∈ st.sessions, p.1 ≠ (createSession st accountId cookie).1.id) ∧
    (createSession st accountId cookie).2.sessions
      = st.sessions ++ [((createSession st accountId cookie).1.id,
          (createSession st accountId cookie).1)] ∧
    (createSession st accountId cookie).2.sessionCounter
      = st.sessionCounter + 1 ∧
    SessionIdsBounded (createSession st accountId cookie).2 := by
  have hid : (createSession st accountId cookie).1.id
      = mkSessionId (st.sessionCounter + 1) := rfl
  have hfresh : ∀ p ∈ st.sessions,
      p.1 ≠ (createSession st accountId cookie).1.id := by
    intro p hp heq
    obtain ⟨k, hk1, hk2, hk3⟩ := hInv p hp
    rw [hid, hk3] at heq
    have := mkSessionId_inj heq
    omega
  have hsessions : (createSession st accountId cookie).2.sessions
      = st.sessions ++ [((createSession st accountId cookie).1.id,
          (createSession st accountId cookie).1)] := by
    show mapSet st.sessions (mkSessionId (st.sessionCounter + 1)) _
      = st.sessions ++ _
    exact mapSet_of_fresh st.sessions _ _ hfresh
  refine ⟨hid, hfresh, hsessions, rfl, ?_⟩
  intro p hp
  rw [hsessions] at hp
  rcases List.mem_append.mp hp with hold | hnew
  · obtain ⟨k, hk1, hk2, hk3⟩ := hInv p hold
    exact ⟨k, hk1, by simpa using Nat.le_succ_of_le hk2, hk3⟩
  · simp only [List.mem_singleton] at hnew
    exact ⟨st.sessionCounter + 1, by omega, by simp [createSession, login],
      by rw [hnew]; exact hid⟩

/-- Witness for C10: from the empty provider state, the first created session
is `session-1`, appended to the empty map, with the counter at 1. -/
theorem createSession_fresh_id_witness :
    (createSession ⟨[], 0⟩ "user" "cookie").1.id = mkSessionId 1 ∧
    (∀ p ∈ ([] : List (String × Session)),
      p.1 ≠ (createSession ⟨[], 0⟩ "user" "cookie").1.id) ∧
    (createSession ⟨[], 0⟩ "user" "cookie").2.sessions
      = [] ++ [((createSession ⟨[], 0⟩ "user" "cookie").1.id,
          (createSession ⟨[], 0⟩ "user" "cookie").1)] ∧
    (createSession ⟨[], 0⟩ "user" "cookie").2.sessionCounter = 0 + 1 ∧
    SessionIdsBounded (createSession ⟨[], 0⟩ "user" "cookie").2 :=
  createSession_fresh_id ⟨[], 0⟩ "user" "cookie" (by intro p hp; simp at hp)

end CawsAuth

namespace Transform

/-- The manifest serialization is injective in `dependenciesRoot`. -/
theorem manifestJson_inj {r1 r2 : String} (h : manifestJson r1 = manifestJson r2) :
    r1 = r2 := by
  rw [manifestJson, manifestJson] at h
  exact StrNum.append_left_inj _ (StrNum.append_right_inj _ h)

/-- C6 counterexample: identical project sources and identical resolved
dependencies, two runs differing only in `Date.now()`, produce different
archives (entry names and manifest bytes embed the timestamped dependency
folder name). -/
theorem zipCode_differs_across_timestamps :
    zipCode [.file "A.java" "class A"] [.file "x.jar" "jar"] "q-deps-" 0
      ≠ zipCode [.file "A.java" "class A"] [.file "x.jar" "jar"] "q-deps-" 1 := by
  decide

/-- C6 amended: `zipCode` is a function of the project files, the resolved
dependencies, the dependency-folder constant and the `Date.now()` timestamp
alone — two runs agreeing on those produce identical archives — but runs
with different timestamps always produce different archives. -/
theorem zipCode_deterministic_given_timestamp (m d : List FsEntry)
    (b : String) (n1 n2 : Nat) :
    (n1 = n2 → zipCode m d b n1 = zipCode m d b n2) ∧
    (n1 ≠ n2 → zipCode m d b n1 ≠ zipCode m d b n2) := by
  constructor
  · intro h; rw [h]
  · intro hne heq
    apply hne
    simp only [zipCode, List.cons.injEq, Prod.mk.injEq] at heq
    obtain ⟨⟨-, hman⟩, -⟩ := heq
    have hroot := manifestJson_inj hman
    rw [getProjectDependenciesFolderName, getProjectDependenciesFolderName]
      at hroot
    have h1 : b ++ Nat.repr n1 = b ++ Nat.repr n2 :=
      StrNum.append_right_inj "/" hroot
    exact StrNum.repr_inj (StrNum.append_left_inj b h1)

/-- Witness for C6 amended: equal timestamps give equal archives; different
timestamps give different archives. -/
theorem zipCode_deterministic_given_timestamp_witness :
    (zipCode [.file "B.java" "b"] [.file "y.jar" "y"] "dep-" 4
      = zipCode [.file "B.java" "b"] [.file "y.jar" "y"] "dep-" 4) ∧
    (zipCode [.file "B.java" "b"] [.file "y.jar" "y"] "dep-" 4
      ≠ zipCode [.file "B.java" "b"] [.file "y.jar" "y"] "dep-" 7) :=
  ⟨(zipCode_deterministic_given_timestamp [.file "B.java" "b"]
      [.file "y.jar" "y"] "dep-" 4 4).1 rfl,
   (zipCode_deterministic_given_timestamp [.file "B.java" "b"]
      [.file "y.jar" "y"] "dep-" 4 7).2 (by decide)⟩

end Transform

namespace SettingsWizard

/-- Helper: the loop never writes a form at an address other than `curr` and
never writes an allocated storage address, and allocation only grows. -/
theorem runLoop_frame (a r : Nat) :
    ∀ (responses : List MenuResponse) (h : Heap) (curr : Nat),
      a ≠ curr → r < h.nextAddr →
      ((runLoop h curr responses).1.forms a = h.forms a ∧
       (runLoop h curr responses).1.storages r = h.storages r ∧
       h.nextAddr ≤ (runLoop h curr responses).1.nextAddr) := by
  intro responses
  induction responses with
  | nil => intro h curr ha hr; exact ⟨rfl, rfl, Nat.le_refl _⟩
  | cons x rest ih =>
    intro h curr ha hr
    match x with
    | .save => exact ⟨rfl, rfl, Nat.le_refl _⟩
    | .dismiss => exact ⟨rfl, rfl, Nat.le_refl _⟩
    | .editInstance none =>
      exact ih h curr ha hr
    | .editInstance (some v) =>
      have step := ih (applyResponse h curr (.editInstance (some v))) curr ha
        (by simpa [applyResponse] using hr)
      simpa [runLoop, applyResponse, ha] using step
    | .editTimeout none =>
      exact ih h curr ha hr
    | .editTimeout (some v) =>
      have step := ih (applyResponse h curr (.editTimeout (some v))) curr ha
        (by simpa [applyResponse] using hr)
      simpa [runLoop, applyResponse, ha] using step
    | .editStorage none =>
      exact ih h curr ha hr
    | .editStorage (some v) =>
      have step := ih (applyResponse h curr (.editStorage (some v))) curr ha
        (by simp [applyResponse]; omega)
      have hrne : r ≠ h.nextAddr := by omega
      simp only [runLoop, applyResponse] at step ⊢
      refine ⟨?_, ?_, ?_⟩
      · rw [step.1]; simp [ha]
      · rw [step.2.1]; simp [hrne]
      · omega

/-- C8: `run` never mutates the initial settings object: whatever sequence of
menu edits is performed, the `initState` form, every one of its fields, and
the `persistentStorage` object it references (its `sizeInGiB` in particular)
are unchanged on the final heap. -/
theorem run_preserves_initState (h : Heap) (initAddr : Nat)
    (responses : List MenuResponse) (hinit : initAddr < h.nextAddr)
    (href : (h.forms initAddr).storageRef < h.nextAddr) :
    (run h initAddr responses).1.forms initAddr = h.forms initAddr ∧
    (run h initAddr responses).1.storages ((h.forms initAddr).storageRef)
      = h.storages ((h.forms initAddr).storageRef) ∧
    readForm (run h initAddr responses).1 initAddr = readForm h initAddr := by
  have hne : initAddr ≠ h.nextAddr := by omega
  have frame := runLoop_frame initAddr ((h.forms initAddr).storageRef)
    responses
    { nextAddr := h.nextAddr + 1,
      forms := fun a => if a = h.nextAddr then h.forms initAddr else h.forms a,
      storages := h.storages }
    h.nextAddr hne (by dsimp only; omega)
  have hf1 : (run h initAddr responses).1.forms initAddr = h.forms initAddr := by
    show (runLoop _ _ _).1.forms initAddr = _
    rw [frame.1]
    simp [hne]
  have hs1 : (run h initAddr responses).1.storages
      ((h.forms initAddr).storageRef)
      = h.storages ((h.forms initAddr).storageRef) := by
    show (runLoop _ _ _).1.storages _ = _
    rw [frame.2.1]
  exact ⟨hf1, hs1, by rw [readForm, readForm, hf1, hs1]⟩

/-- Witness for C8: a concrete initial heap and a run that edits every
setting and saves; the original form and its storage are untouched. -/
theorem run_preserves_initState_witness :
    (0 : Nat) < 2 ∧ (0 : Nat) < 2 ∧
    (let h0 : Heap :=
      { nextAddr := 2,
        forms := fun _ => { instanceType := "dev.standard1.small",
                            inactivityTimeoutMinutes := 15, storageRef := 1 },
        storages := fun _ => 16 }
    (run h0 0 [.editInstance (some "dev.standard1.large"), .editTimeout (some 30),
        .editStorage (some 64), .save]).1.forms 0 = h0.forms 0 ∧
    (run h0 0 [.editInstance (some "dev.standard1.large"), .editTimeout (some 30),
        .editStorage (some 64), .save]).1.storages ((h0.forms 0).storageRef)
      = h0.storages ((h0.forms 0).storageRef) ∧
    readForm (run h0 0 [.editInstance (some "dev.standard1.large"),
        .editTimeout (some 30), .editStorage (some 64), .save]).1 0
      = readForm h0 0) := by
  refine ⟨by omega, by omega, ?_⟩
  exact run_preserves_initState _ 0 _ (by decide) (by decide)

end SettingsWizard
